import Mathlib

/-
Verification of the statistics module statistical_analysis.py.

Numbers are embedded exactly: rational arithmetic (ℚ) for every quantity the
source computes with field operations only, and real arithmetic (ℝ) where a
square root appears. Missing values (NaN) are represented by the none case of
Option. Python functions that raise become functions into Except. Division by
zero in ℚ or ℝ yields 0 where the floating source would yield NaN or inf;
no claim below depends on a value produced that way.

External scipy routines are modelled as follows: t statistics, the F statistic
and Pearson r by their standard closed formulas (which is what scipy computes,
in floating point); Student t p-values and quantiles through the Student t
density kernel, normalized by its total integral; numerical special-function
routines whose value no claim inspects (Shapiro-Wilk, the p-values of ANOVA and
of the correlation tests, the Spearman and Kendall coefficients) as arbitrary
unspecified functions obtained from Classical.choice, so that no property of
them can be assumed or proved.
-/

open MeasureTheory Set Filter Topology

namespace FPStats

/-- Python exception values raised by the statistics module. The source raises
the built-in ValueError; the spec instead names a domain error
InsufficientDataError, included here as a constructor so that statements about
the error taxonomy can be expressed. The code never constructs it. -/
inductive StatsError where
  | valueError : String → StatsError
  | insufficientDataError : String → StatsError
  deriving DecidableEq

/-- An input sample: an ordered sequence of numbers where a missing entry
(NaN in the source) is represented by none. -/
abbrev Sample := List (Option ℚ)

/-- pd.Series(data).dropna() viewed as a plain value sequence: remove missing
entries, preserving relative order. -/
def clean (xs : Sample) : List ℚ := xs.filterMap id

/-- The call raised the Python exception ValueError (with some message), and
consequently produced no result mapping. -/
def raisesValueError {α : Type} (e : Except StatsError α) : Prop :=
  ∃ m, e = Except.error (StatsError.valueError m)

/-- The call raised the domain error InsufficientDataError named by the spec. -/
def raisesInsufficientDataError {α : Type} (e : Except StatsError α) : Prop :=
  ∃ m, e = Except.error (StatsError.insufficientDataError m)

/-- Series.mean(): arithmetic mean, sum divided by length. -/
def listMean (l : List ℚ) : ℚ := l.sum / l.length

/-- Series.var(ddof=1): sample variance with the n-1 denominator. For n = 1
the source yields NaN; division by zero in ℚ yields the junk value 0. -/
def sampleVar (l : List ℚ) : ℚ :=
  (l.map (fun x => (x - listMean l) ^ 2)).sum / ((l.length : ℚ) - 1)

/-- Series.std(ddof=1): sample standard deviation. -/
noncomputable def sampleStd (l : List ℚ) : ℝ := Real.sqrt ((sampleVar l : ℚ) : ℝ)

/-- scipy.stats.sem: standard error of the mean, std(ddof=1) / sqrt(n). -/
noncomputable def semOf (l : List ℚ) : ℝ := sampleStd l / Real.sqrt (l.length : ℝ)

/-- The sample standard deviation written from the words of the spec: square
root of the sum of squared deviations from the mean, divided by n - 1. -/
noncomputable def specStd (l : List ℚ) : ℝ :=
  Real.sqrt
    ((l.map (fun x : ℚ => ((x : ℝ) - ((listMean l : ℚ) : ℝ)) ^ 2)).sum / ((l.length : ℝ) - 1))

/-- The number of non-missing entries of a sample, written from the spec. -/
def countSome (xs : Sample) : ℕ := (xs.filter (fun o => o.isSome)).length

/-- Series.min(). -/
def listMin : List ℚ → ℚ
  | [] => 0
  | x :: xs => xs.foldl min x

/-- Series.max(). -/
def listMax : List ℚ → ℚ
  | [] => 0
  | x :: xs => xs.foldl max x

/-- Element access into a list with default 0. -/
def elt (s : List ℚ) (i : ℕ) : ℚ := (s[i]?).getD 0

/-- The upper interpolation node: the element one past position i, clipped to
the end of the list. -/
def eltHi (s : List ℚ) (i : ℕ) : ℚ :=
  if i + 1 < s.length then elt s (i + 1) else elt s i

/-- Linear interpolation at fractional position h into the list s:
s[floor h] + (h - floor h) * (s[floor h + 1] - s[floor h]), indices clipped to
the list, the scheme NumPy and pandas use for quantiles. -/
def interp (s : List ℚ) (h : ℚ) : ℚ :=
  elt s (⌊h⌋).toNat + (h - ((⌊h⌋ : ℤ) : ℚ)) * (eltHi s (⌊h⌋).toNat - elt s (⌊h⌋).toNat)

/-- Series.quantile(q) with the default linear interpolation: interpolate at
position (n - 1) * q into the sorted data. -/
def quantile (l : List ℚ) (q : ℚ) : ℚ :=
  interp (List.insertionSort (· ≤ ·) l) (((l.length : ℚ) - 1) * q)

/-- Series.median(): pandas computes the same value as quantile(0.5) with
linear interpolation (middle element, or average of the two middles). -/
def medianOf (l : List ℚ) : ℚ := quantile l (1 / 2)

/-- Unnormalized Student t density kernel with ν degrees of freedom. -/
noncomputable def tKernel (ν x : ℝ) : ℝ := (1 + x ^ 2 / ν) ^ (-((ν + 1) / 2))

/-- Total mass of the Student t density kernel. -/
noncomputable def tTotal (ν : ℝ) : ℝ := ∫ x, tKernel ν x

/-- CDF of the Student t distribution with ν degrees of freedom, modelling
scipy.stats.t.cdf: the normalized integral of the density kernel. -/
noncomputable def tCdf (ν x : ℝ) : ℝ := (∫ u in Iic x, tKernel ν u) / tTotal ν

/-- Two-sided p-value 2 * (1 - cdf(|t|)), as computed by the scipy t tests. -/
noncomputable def tTwoSidedP (ν t : ℝ) : ℝ := 2 * (1 - tCdf ν |t|)

/-- scipy.stats.t.ppf: quantile function of the Student t distribution,
modelled as the least point whose CDF reaches p. -/
noncomputable def tPpf (ν p : ℝ) : ℝ := sInf {x : ℝ | p ≤ tCdf ν x}

/-- scipy.stats.shapiro W statistic: an external numerical routine whose value
no claim inspects; an arbitrary unspecified function. -/
noncomputable def shapiroW : List ℚ → ℝ :=
  Classical.choice (Nonempty.intro (fun _ => 0))

/-- scipy.stats.shapiro p-value: arbitrary unspecified function. -/
noncomputable def shapiroP : List ℚ → ℝ :=
  Classical.choice (Nonempty.intro (fun _ => 0))

/-- scipy.stats.f_oneway p-value: arbitrary unspecified function. -/
noncomputable def fOneWayP : List (List ℚ) → ℝ :=
  Classical.choice (Nonempty.intro (fun _ => 0))

/-- scipy.stats.pearsonr p-value: arbitrary unspecified function. -/
noncomputable def pearsonP : List (ℚ × ℚ) → ℝ :=
  Classical.choice (Nonempty.intro (fun _ => 0))

/-- scipy.stats.spearmanr coefficient: arbitrary unspecified function. -/
noncomputable def spearmanR : List (ℚ × ℚ) → ℝ :=
  Classical.choice (Nonempty.intro (fun _ => 0))

/-- scipy.stats.spearmanr p-value: arbitrary unspecified function. -/
noncomputable def spearmanP : List (ℚ × ℚ) → ℝ :=
  Classical.choice (Nonempty.intro (fun _ => 0))

/-- scipy.stats.kendalltau coefficient: arbitrary unspecified function. -/
noncomputable def kendallTau : List (ℚ × ℚ) → ℝ :=
  Classical.choice (Nonempty.intro (fun _ => 0))

/-- scipy.stats.kendalltau p-value: arbitrary unspecified function. -/
noncomputable def kendallP : List (ℚ × ℚ) → ℝ :=
  Classical.choice (Nonempty.intro (fun _ => 0))

/-- The result mapping of descriptive_stats. -/
structure DescStats where
  n : ℕ
  mean : ℚ
  median : ℚ
  std : ℝ
  sem : ℝ
  min : ℚ
  max : ℚ
  q1 : ℚ
  q3 : ℚ
  iqr : ℚ

/-- descriptive_stats from statistical_analysis.py. -/
noncomputable def descriptive_stats (data : Sample) : Except StatsError DescStats :=
  if data.length = 0 then
    Except.error (StatsError.valueError "Cannot compute statistics on empty data")
  else
    let series := clean data
    if series.length = 0 then
      Except.error (StatsError.valueError "Data contains only NaN values")
    else
      Except.ok
        { n := series.length
          mean := listMean series
          median := medianOf series
          std := sampleStd series
          sem := semOf series
          min := listMin series
          max := listMax series
          q1 := quantile series (1 / 4)
          q3 := quantile series (3 / 4)
          iqr := quantile series (3 / 4) - quantile series (1 / 4) }

/-- The result mapping of independent_t_test. -/
structure TTestResult where
  t_statistic : ℝ
  p_value : ℝ
  df : ℚ
  cohens_d : ℝ

/-- Welch-Satterthwaite degrees of freedom, used by scipy for equal_var=False. -/
def welchDf (v1 v2 n1 n2 : ℚ) : ℚ :=
  (v1 / n1 + v2 / n2) ^ 2 / ((v1 / n1) ^ 2 / (n1 - 1) + (v2 / n2) ^ 2 / (n2 - 1))

/-- independent_t_test from statistical_analysis.py. scipy.stats.ttest_ind is
modelled by the standard pooled (equal_var=True) and Welch (equal_var=False)
t statistics together with the two-sided Student t p-value at the matching
degrees of freedom. The df entry of the returned mapping is the separately
computed len1 + len2 - 2 of the source, for either value of equal_var. -/
noncomputable def independent_t_test (group1 group2 : Sample) (equal_var : Bool) :
    Except StatsError TTestResult :=
  let c1 := clean group1
  let c2 := clean group2
  if c1.length < 2 ∨ c2.length < 2 then
    Except.error (StatsError.valueError "Each group must have at least 2 non-NaN values")
  else
    let n1 : ℚ := c1.length
    let n2 : ℚ := c2.length
    let v1 := sampleVar c1
    let v2 := sampleVar c2
    let df : ℚ := n1 + n2 - 2
    let t : ℝ :=
      if equal_var then
        ((listMean c1 - listMean c2 : ℚ) : ℝ) /
          Real.sqrt (((((n1 - 1) * v1 + (n2 - 1) * v2) / df) * (1 / n1 + 1 / n2) : ℚ) : ℝ)
      else
        ((listMean c1 - listMean c2 : ℚ) : ℝ) /
          Real.sqrt ((v1 / n1 + v2 / n2 : ℚ) : ℝ)
    let pValueDf : ℝ := if equal_var then (df : ℝ) else ((welchDf v1 v2 n1 n2 : ℚ) : ℝ)
    let pooled_std : ℝ :=
      Real.sqrt ((((n1 - 1 : ℚ) : ℝ) * sampleStd c1 ^ 2 + ((n2 - 1 : ℚ) : ℝ) * sampleStd c2 ^ 2) /
        ((df : ℚ) : ℝ))
    Except.ok
      { t_statistic := t
        p_value := tTwoSidedP pValueDf t
        df := df
        cohens_d := ((listMean c1 - listMean c2 : ℚ) : ℝ) / pooled_std }

/-- The result mapping of paired_t_test. -/
structure PairedResult where
  t_statistic : ℝ
  p_value : ℝ
  df : ℚ
  mean_diff : ℚ

/-- Series.dropna() keeps the original integer index labels; a cleaned series
is modelled as a list of (index, value) pairs in index order. -/
def cleanIdx (xs : Sample) : List (ℕ × ℚ) :=
  xs.enum.filterMap (fun p => p.2.map (fun v => (p.1, v)))

/-- The pandas expression (after_clean - before_clean).mean(): subtraction
aligns the two series on their index labels, produces a missing value at any
label absent from either side, and mean() skips the missing values. -/
def alignedMeanDiff (a b : List (ℕ × ℚ)) : ℚ :=
  listMean (a.filterMap (fun p => (List.lookup p.1 b).map (fun bv => p.2 - bv)))

/-- paired_t_test from statistical_analysis.py. Both cleaned series are
truncated to the minimum length with iloc before pairing. scipy.stats.ttest_rel
works positionally on the values (before - after); mean_diff is the pandas
index-aligned mean of (after - before). -/
noncomputable def paired_t_test (before after : Sample) : Except StatsError PairedResult :=
  let before_clean := cleanIdx before
  let after_clean := cleanIdx after
  let min_len := Nat.min before_clean.length after_clean.length
  if min_len < 2 then
    Except.error (StatsError.valueError "Need at least 2 complete pairs for paired t-test")
  else
    let bt := before_clean.take min_len
    let at2 := after_clean.take min_len
    let diffs := List.zipWith (fun p q => p.2 - q.2) bt at2
    let t : ℝ := ((listMean diffs : ℚ) : ℝ) / (sampleStd diffs / Real.sqrt (min_len : ℝ))
    Except.ok
      { t_statistic := t
        p_value := tTwoSidedP (((min_len : ℚ) - 1 : ℚ) : ℝ) t
        df := (min_len : ℚ) - 1
        mean_diff := alignedMeanDiff at2 bt }

/-- The result mapping of one_way_anova. -/
structure AnovaResult where
  f_statistic : ℚ
  p_value : ℝ
  df_between : ℚ
  df_within : ℚ

/-- one_way_anova from statistical_analysis.py. The scipy.stats.f_oneway F
statistic is the between-groups mean square over the within-groups mean
square of the cleaned groups, in exact rational arithmetic. -/
noncomputable def one_way_anova (groups : List Sample) : Except StatsError AnovaResult :=
  if groups.length < 2 then
    Except.error (StatsError.valueError "ANOVA requires at least 2 groups")
  else
    let cg := groups.map clean
    if ∃ g ∈ cg, g.length < 2 then
      Except.error (StatsError.valueError "Each group must have at least 2 non-NaN values")
    else
      let totalN : ℚ := (cg.map (fun g => (g.length : ℚ))).sum
      let k : ℚ := (cg.length : ℚ)
      let grand := (cg.map List.sum).sum / totalN
      let ssb := (cg.map (fun g => (g.length : ℚ) * (listMean g - grand) ^ 2)).sum
      let ssw := (cg.map (fun g => (g.map (fun x => (x - listMean g) ^ 2)).sum)).sum
      let df_between := k - 1
      let df_within := totalN - k
      Except.ok
        { f_statistic := (ssb / df_between) / (ssw / df_within)
          p_value := fOneWayP cg
          df_between := df_between
          df_within := df_within }

/-- The result mapping of correlation_analysis. -/
structure CorrResult where
  correlation : ℝ
  p_value : ℝ
  n : ℕ

/-- pd.DataFrame of the two cleaned series followed by dropna(): since dropna
keeps original index labels and the frame aligns on them, a row survives
exactly at the positions where both inputs carry a value. -/
def alignPairs (x y : Sample) : List (ℚ × ℚ) :=
  (x.zip y).filterMap (fun p =>
    match p with
    | (some a, some b) => some (a, b)
    | _ => none)

/-- Pearson correlation coefficient of the aligned pairs. -/
noncomputable def pearsonR (l : List (ℚ × ℚ)) : ℝ :=
  let mx := listMean (l.map Prod.fst)
  let my := listMean (l.map Prod.snd)
  (((l.map (fun p => (p.1 - mx) * (p.2 - my))).sum : ℚ) : ℝ) /
    Real.sqrt ((((l.map (fun p => (p.1 - mx) ^ 2)).sum *
      (l.map (fun p => (p.2 - my) ^ 2)).sum : ℚ) : ℝ))

/-- correlation_analysis from statistical_analysis.py. The Python message for
an invalid method interpolates the set literal of valid methods; the message
text is abridged here (no claim inspects message contents). -/
noncomputable def correlation_analysis (x y : Sample) (method : String) :
    Except StatsError CorrResult :=
  if method ≠ "pearson" ∧ method ≠ "spearman" ∧ method ≠ "kendall" then
    Except.error (StatsError.valueError "Method must be one of pearson, spearman, kendall")
  else
    let aligned := alignPairs x y
    if aligned.length < 2 then
      Except.error (StatsError.valueError "Need at least 2 complete pairs for correlation")
    else if method = "pearson" then
      Except.ok { correlation := pearsonR aligned, p_value := pearsonP aligned, n := aligned.length }
    else if method = "spearman" then
      Except.ok { correlation := spearmanR aligned, p_value := spearmanP aligned, n := aligned.length }
    else
      Except.ok { correlation := kendallTau aligned, p_value := kendallP aligned, n := aligned.length }

/-- The result mapping of normality_test; is_normal is the truth value of
p_value > 0.05. -/
structure NormalityResult where
  w_statistic : ℝ
  p_value : ℝ
  is_normal : Prop

/-- normality_test from statistical_analysis.py. -/
noncomputable def normality_test (data : Sample) : Except StatsError NormalityResult :=
  let data_clean := clean data
  if data_clean.length < 3 then
    Except.error (StatsError.valueError "Normality test requires at least 3 observations")
  else
    Except.ok
      { w_statistic := shapiroW data_clean
        p_value := shapiroP data_clean
        is_normal := shapiroP data_clean > 1 / 20 }

/-- confidence_interval from statistical_analysis.py: mean plus and minus
sem * t.ppf((1 + confidence) / 2, n - 1) over the cleaned data. -/
noncomputable def confidence_interval (data : Sample) (confidence : ℚ) :
    Except StatsError (ℝ × ℝ) :=
  if ¬(0 < confidence ∧ confidence < 1) then
    Except.error (StatsError.valueError "Confidence level must be between 0 and 1")
  else
    let data_clean := clean data
    if data_clean.length < 2 then
      Except.error (StatsError.valueError "Need at least 2 observations for confidence interval")
    else
      let m : ℝ := ((listMean data_clean : ℚ) : ℝ)
      let margin : ℝ :=
        semOf data_clean * tPpf ((data_clean.length : ℝ) - 1) (((1 + confidence) / 2 : ℚ) : ℝ)
      Except.ok (m - margin, m + margin)

/-! ### Order lemmas for minimum, maximum and the interpolated quantile -/

lemma foldl_min_le_init (a : ℚ) (l : List ℚ) : l.foldl min a ≤ a := by
  induction l generalizing a with
  | nil => exact le_refl a
  | cons x xs ih => exact le_trans (ih (min a x)) (min_le_left a x)

lemma foldl_min_le_mem {y : ℚ} {l : List ℚ} (a : ℚ) (hy : y ∈ l) : l.foldl min a ≤ y := by
  induction l generalizing a with
  | nil => cases hy
  | cons x xs ih =>
    rcases List.mem_cons.mp hy with rfl | hmem
    · exact le_trans (foldl_min_le_init (min a y) xs) (min_le_right a y)
    · exact ih (min a x) hmem

lemma listMin_le_of_mem {y : ℚ} {l : List ℚ} (hy : y ∈ l) : listMin l ≤ y := by
  cases l with
  | nil => cases hy
  | cons x xs =>
    rcases List.mem_cons.mp hy with rfl | hmem
    · exact foldl_min_le_init y xs
    · exact foldl_min_le_mem x hmem

lemma init_le_foldl_max (a : ℚ) (l : List ℚ) : a ≤ l.foldl max a := by
  induction l generalizing a with
  | nil => exact le_refl a
  | cons x xs ih => exact le_trans (le_max_left a x) (ih (max a x))

lemma mem_le_foldl_max {y : ℚ} {l : List ℚ} (a : ℚ) (hy : y ∈ l) : y ≤ l.foldl max a := by
  induction l generalizing a with
  | nil => cases hy
  | cons x xs ih =>
    rcases List.mem_cons.mp hy with rfl | hmem
    · exact le_trans (le_max_right a y) (init_le_foldl_max (max a y) xs)
    · exact ih (max a x) hmem

lemma le_listMax_of_mem {y : ℚ} {l : List ℚ} (hy : y ∈ l) : y ≤ listMax l := by
  cases l with
  | nil => cases hy
  | cons x xs =>
    rcases List.mem_cons.mp hy with rfl | hmem
    · exact init_le_foldl_max y xs
    · exact mem_le_foldl_max x hmem

lemma elt_mem {s : List ℚ} {i : ℕ} (h : i < s.length) : elt s i ∈ s := by
  unfold elt
  rw [List.getElem?_eq_getElem h]
  exact List.getElem_mem h

lemma elt_sorted_mono {s : List ℚ} (hs : s.Sorted (· ≤ ·)) {i j : ℕ} (hij : i ≤ j)
    (hj : j < s.length) : elt s i ≤ elt s j := by
  have hi : i < s.length := lt_of_le_of_lt hij hj
  unfold elt
  rw [List.getElem?_eq_getElem hi, List.getElem?_eq_getElem hj]
  simp only [Option.getD_some]
  have := hs.rel_get_of_le (a := ⟨i, hi⟩) (b := ⟨j, hj⟩) hij
  simpa [List.get_eq_getElem] using this

lemma elt_le_eltHi {s : List ℚ} (hs : s.Sorted (· ≤ ·)) {i : ℕ} (hi : i < s.length) :
    elt s i ≤ eltHi s i := by
  unfold eltHi
  split
  · exact elt_sorted_mono hs (Nat.le_succ i) (by assumption)
  · exact le_refl _

lemma eltHi_mem {s : List ℚ} {i : ℕ} (hi : i < s.length) : eltHi s i ∈ s := by
  unfold eltHi
  split
  · exact elt_mem (by assumption)
  · exact elt_mem hi

lemma toNat_floor_lt {h : ℚ} {n : ℕ} (hn : 1 ≤ n) (hub : h ≤ (n : ℚ) - 1) :
    (⌊h⌋).toNat < n := by
  have h1 : (⌊h⌋ : ℚ) ≤ (n : ℚ) - 1 := le_trans (Int.floor_le h) hub
  have h2 : ⌊h⌋ ≤ (n : ℤ) - 1 := by exact_mod_cast h1
  omega

lemma frac_nonneg (h : ℚ) : 0 ≤ h - ((⌊h⌋ : ℤ) : ℚ) := sub_nonneg.mpr (Int.floor_le h)

lemma frac_le_one (h : ℚ) : h - ((⌊h⌋ : ℤ) : ℚ) ≤ 1 := by
  have := Int.lt_floor_add_one h
  push_cast at this ⊢
  linarith

lemma elt_le_interp {s : List ℚ} (hs : s.Sorted (· ≤ ·)) {h : ℚ}
    (hi : (⌊h⌋).toNat < s.length) : elt s (⌊h⌋).toNat ≤ interp s h := by
  unfold interp
  have hd : 0 ≤ eltHi s (⌊h⌋).toNat - elt s (⌊h⌋).toNat :=
    sub_nonneg.mpr (elt_le_eltHi hs hi)
  nlinarith [frac_nonneg h]

lemma interp_le_eltHi {s : List ℚ} (hs : s.Sorted (· ≤ ·)) {h : ℚ}
    (hi : (⌊h⌋).toNat < s.length) : interp s h ≤ eltHi s (⌊h⌋).toNat := by
  unfold interp
  have hd : 0 ≤ eltHi s (⌊h⌋).toNat - elt s (⌊h⌋).toNat :=
    sub_nonneg.mpr (elt_le_eltHi hs hi)
  nlinarith [frac_le_one h]

lemma interp_mono {s : List ℚ} (hs : s.Sorted (· ≤ ·)) {h k : ℚ} (h0 : 0 ≤ h)
    (hhk : h ≤ k) (hub : k ≤ (s.length : ℚ) - 1) : interp s h ≤ interp s k := by
  have hk0 : 0 ≤ k := le_trans h0 hhk
  have hn1 : 1 ≤ s.length := by
    by_contra hcon
    have hz : s.length = 0 := by omega
    rw [hz] at hub
    norm_num at hub
    linarith
  have hfh0 : 0 ≤ ⌊h⌋ := Int.floor_nonneg.mpr h0
  have hfk0 : 0 ≤ ⌊k⌋ := Int.floor_nonneg.mpr hk0
  have hfle : ⌊h⌋ ≤ ⌊k⌋ := Int.floor_le_floor hhk
  have hij : (⌊h⌋).toNat ≤ (⌊k⌋).toNat := by omega
  have hjn : (⌊k⌋).toNat < s.length := toNat_floor_lt hn1 hub
  have hin : (⌊h⌋).toNat < s.length := lt_of_le_of_lt hij hjn
  rcases lt_or_eq_of_le hij with hlt | heq
  · have h1 : interp s h ≤ eltHi s (⌊h⌋).toNat := interp_le_eltHi hs hin
    have hsucc : (⌊h⌋).toNat + 1 < s.length := by omega
    have h2 : eltHi s (⌊h⌋).toNat = elt s ((⌊h⌋).toNat + 1) := by
      unfold eltHi
      rw [if_pos hsucc]
    have h3 : elt s ((⌊h⌋).toNat + 1) ≤ elt s (⌊k⌋).toNat :=
      elt_sorted_mono hs (by omega) hjn
    have h4 : elt s (⌊k⌋).toNat ≤ interp s k := elt_le_interp hs hjn
    calc interp s h ≤ eltHi s (⌊h⌋).toNat := h1
      _ = elt s ((⌊h⌋).toNat + 1) := h2
      _ ≤ elt s (⌊k⌋).toNat := h3
      _ ≤ interp s k := h4
  · have hfeq : ⌊h⌋ = ⌊k⌋ := by omega
    unfold interp
    rw [← hfeq]
    have hd : 0 ≤ eltHi s (⌊h⌋).toNat - elt s (⌊h⌋).toNat :=
      sub_nonneg.mpr (elt_le_eltHi hs hin)
    nlinarith [hhk]

lemma sorted_quantile : ∀ (l : List ℚ),
    (List.insertionSort (· ≤ ·) l).Sorted (· ≤ ·) :=
  List.sorted_insertionSort (· ≤ ·)

lemma length_insertionSort (l : List ℚ) :
    (List.insertionSort (· ≤ ·) l).length = l.length :=
  (List.perm_insertionSort (· ≤ ·) l).length_eq

lemma quantile_mono {l : List ℚ} (hl : l ≠ []) {p q : ℚ} (h0 : 0 ≤ p) (hpq : p ≤ q)
    (hq1 : q ≤ 1) : quantile l p ≤ quantile l q := by
  have hn : 1 ≤ l.length := List.length_pos.mpr hl
  have hn1 : (1 : ℚ) ≤ (l.length : ℚ) := by exact_mod_cast hn
  unfold quantile
  apply interp_mono (sorted_quantile l)
  · exact mul_nonneg (by linarith) h0
  · exact mul_le_mul_of_nonneg_left hpq (by linarith)
  · rw [length_insertionSort]
    nlinarith

lemma quantile_bounds {l : List ℚ} (hl : l ≠ []) {p : ℚ} (h0 : 0 ≤ p) (hp1 : p ≤ 1) :
    listMin l ≤ quantile l p ∧ quantile l p ≤ listMax l := by
  have hn : 1 ≤ l.length := List.length_pos.mpr hl
  have hn1 : (1 : ℚ) ≤ (l.length : ℚ) := by exact_mod_cast hn
  have hs := sorted_quantile l
  have hperm := List.perm_insertionSort (· ≤ ·) l
  have hub : ((l.length : ℚ) - 1) * p ≤ ((List.insertionSort (· ≤ ·) l).length : ℚ) - 1 := by
    rw [length_insertionSort]
    nlinarith
  have hin : (⌊((l.length : ℚ) - 1) * p⌋).toNat < (List.insertionSort (· ≤ ·) l).length := by
    apply toNat_floor_lt
    · rw [length_insertionSort]; exact hn
    · exact hub
  constructor
  · refine le_trans ?_ (elt_le_interp hs hin)
    exact listMin_le_of_mem (hperm.mem_iff.mp (elt_mem hin))
  · refine le_trans (interp_le_eltHi hs hin) ?_
    exact le_listMax_of_mem (hperm.mem_iff.mp (eltHi_mem hin))

lemma sampleVar_nonneg {l : List ℚ} (hl : 1 ≤ l.length) : 0 ≤ sampleVar l := by
  unfold sampleVar
  apply div_nonneg
  · apply List.sum_nonneg
    intro x hx
    rcases List.mem_map.mp hx with ⟨y, hy, rfl⟩
    exact sq_nonneg _
  · have : (1 : ℚ) ≤ (l.length : ℚ) := by exact_mod_cast hl
    linarith

/-! ### Claim C2: descriptive_stats on the single-element sample [5] -/

/-- Claim C2, counterexample: the claim says descriptive_stats([5]) returns
q1 = 0 and q3 = 0; the code computes the linear-interpolation quantile of the
one-element series, which is 5 at every level, so q1 = q3 = 5 and 5 is not 0.
The full returned mapping at [5] is n=1, mean=median=min=max=q1=q3=5,
iqr=0 (and std=sem=0, the junk value standing for NaN). -/
theorem claim_C2_counterexample :
    descriptive_stats [some 5] = Except.ok ⟨1, 5, 5, 0, 0, 5, 5, 5, 5, 0⟩ ∧ (5 : ℚ) ≠ 0 := by
  refine ⟨?_, by norm_num⟩
  unfold descriptive_stats
  simp only [clean, List.filterMap_cons, List.filterMap_nil, id_eq]
  norm_num [DescStats.mk.injEq]
  refine ⟨?_, ?_, ?_, ?_, ?_, ?_, ?_, ?_, ?_⟩
  · norm_num [listMean]
  · norm_num [medianOf, quantile, interp, elt, eltHi, List.insertionSort, List.orderedInsert]
  · norm_num [sampleStd, show sampleVar [5] = 0 by norm_num [sampleVar, listMean]]
  · norm_num [semOf, sampleStd, show sampleVar [5] = 0 by norm_num [sampleVar, listMean]]
  · norm_num [listMin]
  · norm_num [listMax]
  · norm_num [quantile, interp, elt, eltHi, List.insertionSort, List.orderedInsert]
  · norm_num [quantile, interp, elt, eltHi, List.insertionSort, List.orderedInsert]
  · norm_num [quantile, interp, elt, eltHi, List.insertionSort, List.orderedInsert]

/-- Claim C2, amended: descriptive_stats applied to the single-element sample
[5] returns a mapping with n=1, mean=5, median=5, min=5, max=5, q1=5, q3=5
and iqr=0 (the quantiles of a one-element series equal its value; only the
iqr is 0, not q1 and q3 themselves). -/
theorem claim_C2_amended :
    ∃ r, descriptive_stats [some 5] = Except.ok r ∧ r.n = 1 ∧ r.mean = 5 ∧
      r.median = 5 ∧ r.min = 5 ∧ r.max = 5 ∧ r.q1 = 5 ∧ r.q3 = 5 ∧ r.iqr = 0 := by
  refine ⟨⟨1, 5, 5, 0, 0, 5, 5, 5, 5, 0⟩, ?_, rfl, rfl, rfl, rfl, rfl, rfl, rfl, rfl⟩
  unfold descriptive_stats
  simp only [clean, List.filterMap_cons, List.filterMap_nil, id_eq]
  norm_num [DescStats.mk.injEq]
  refine ⟨?_, ?_, ?_, ?_, ?_, ?_, ?_, ?_, ?_⟩
  · norm_num [listMean]
  · norm_num [medianOf, quantile, interp, elt, eltHi, List.insertionSort, List.orderedInsert]
  · norm_num [sampleStd, show sampleVar [5] = 0 by norm_num [sampleVar, listMean]]
  · norm_num [semOf, sampleStd, show sampleVar [5] = 0 by norm_num [sampleVar, listMean]]
  · norm_num [listMin]
  · norm_num [listMax]
  · norm_num [quantile, interp, elt, eltHi, List.insertionSort, List.orderedInsert]
  · norm_num [quantile, interp, elt, eltHi, List.insertionSort, List.orderedInsert]
  · norm_num [quantile, interp, elt, eltHi, List.insertionSort, List.orderedInsert]

/-! ### Claim C6: quantile ordering invariants of descriptive_stats -/

/-- Claim C6: for every sample accepted by descriptive_stats (at least one
non-missing value), the returned mapping satisfies q3 - q1 = iqr exactly and
min ≤ q1 ≤ median ≤ q3 ≤ max. -/
theorem claim_C6 (data : Sample) (h1 : 1 ≤ (clean data).length) :
    ∃ r, descriptive_stats data = Except.ok r ∧ r.q3 - r.q1 = r.iqr ∧
      r.min ≤ r.q1 ∧ r.q1 ≤ r.median ∧ r.median ≤ r.q3 ∧ r.q3 ≤ r.max := by
  have hne : clean data ≠ [] := by
    intro h
    rw [h] at h1
    simp at h1
  have hdata : ¬(data.length = 0) := by
    intro h
    rw [List.length_eq_zero.mp h] at h1
    simp [clean] at h1
  have hclean : ¬((clean data).length = 0) := by
    intro h
    exact hne (List.length_eq_zero.mp h)
  unfold descriptive_stats
  simp only [hdata, if_false, hclean]
  refine ⟨_, rfl, rfl, ?_, ?_, ?_, ?_⟩
  · exact (quantile_bounds hne (by norm_num) (by norm_num)).1
  · exact quantile_mono hne (by norm_num) (by norm_num) (by norm_num)
  · exact quantile_mono hne (by norm_num) (by norm_num) (by norm_num)
  · exact (quantile_bounds hne (by norm_num) (by norm_num)).2

/-- Witness for claim C6 at the concrete sample [3, 1, 2]. -/
theorem claim_C6_witness :
    1 ≤ (clean [some 3, some 1, some 2]).length ∧
      (∃ r, descriptive_stats [some 3, some 1, some 2] = Except.ok r ∧
        r.q3 - r.q1 = r.iqr ∧ r.min ≤ r.q1 ∧ r.q1 ≤ r.median ∧
        r.median ≤ r.q3 ∧ r.q3 ≤ r.max) :=
  ⟨by decide, claim_C6 [some 3, some 1, some 2] (by decide)⟩

/-! ### Claim C1: the error taxonomy of the module -/

/-- Claim C1, counterexample: the claim says precondition violations raise the
domain error InsufficientDataError and not a generic exception. At the concrete
input [] (empty sample), descriptive_stats raises the generic built-in
ValueError, and does not raise InsufficientDataError; the module never
constructs any domain error type. -/
theorem claim_C1_counterexample :
    descriptive_stats [] =
      Except.error (StatsError.valueError "Cannot compute statistics on empty data") ∧
      ¬raisesInsufficientDataError (descriptive_stats ([] : Sample)) := by
  constructor
  · unfold descriptive_stats
    simp
  · intro hcon
    rcases hcon with ⟨m, hm⟩
    unfold descriptive_stats at hm
    simp at hm

/-- Claim C1, amended: for every operation of the Statistics Module, every
precondition violation (too few observations after cleaning, invalid
confidence level, invalid correlation method, fewer than two groups) raises
the generic built-in exception ValueError (the module defines no domain error
type), and no partial result mapping is returned. -/
theorem claim_C1_amended :
    (∀ data : Sample, data.length = 0 ∨ (clean data).length = 0 →
      raisesValueError (descriptive_stats data)) ∧
    (∀ (g1 g2 : Sample) (b : Bool), (clean g1).length < 2 ∨ (clean g2).length < 2 →
      raisesValueError (independent_t_test g1 g2 b)) ∧
    (∀ before after : Sample, Nat.min (cleanIdx before).length (cleanIdx after).length < 2 →
      raisesValueError (paired_t_test before after)) ∧
    (∀ groups : List Sample, groups.length < 2 ∨ (∃ g ∈ groups, (clean g).length < 2) →
      raisesValueError (one_way_anova groups)) ∧
    (∀ (x y : Sample) (m : String),
      (m ≠ "pearson" ∧ m ≠ "spearman" ∧ m ≠ "kendall") ∨ (alignPairs x y).length < 2 →
      raisesValueError (correlation_analysis x y m)) ∧
    (∀ data : Sample, (clean data).length < 3 → raisesValueError (normality_test data)) ∧
    (∀ (data : Sample) (c : ℚ), ¬(0 < c ∧ c < 1) ∨ (clean data).length < 2 →
      raisesValueError (confidence_interval data c)) := by
  refine ⟨?_, ?_, ?_, ?_, ?_, ?_, ?_⟩
  · intro data h
    unfold descriptive_stats
    rcases h with h | h
    · rw [if_pos h]
      exact ⟨_, rfl⟩
    · by_cases hd : data.length = 0
      · rw [if_pos hd]
        exact ⟨_, rfl⟩
      · simp only [if_neg hd, if_pos h]
        exact ⟨_, rfl⟩
  · intro g1 g2 b h
    unfold independent_t_test
    rw [if_pos h]
    exact ⟨_, rfl⟩
  · intro b a h
    unfold paired_t_test
    rw [if_pos h]
    exact ⟨_, rfl⟩
  · intro groups h
    unfold one_way_anova
    rcases h with h | ⟨g, hg, hlen⟩
    · rw [if_pos h]
      exact ⟨_, rfl⟩
    · by_cases h2 : groups.length < 2
      · rw [if_pos h2]
        exact ⟨_, rfl⟩
      · have hmem : ∃ gc ∈ groups.map clean, gc.length < 2 :=
          ⟨clean g, List.mem_map_of_mem clean hg, hlen⟩
        simp only [if_neg h2, if_pos hmem]
        exact ⟨_, rfl⟩
  · intro x y m h
    unfold correlation_analysis
    rcases h with h | h
    · rw [if_pos h]
      exact ⟨_, rfl⟩
    · by_cases hm : m ≠ "pearson" ∧ m ≠ "spearman" ∧ m ≠ "kendall"
      · rw [if_pos hm]
        exact ⟨_, rfl⟩
      · simp only [if_neg hm, if_pos h]
        exact ⟨_, rfl⟩
  · intro data h
    unfold normality_test
    simp only [if_pos h]
    exact ⟨_, rfl⟩
  · intro data c h
    unfold confidence_interval
    rcases h with h | h
    · rw [if_pos h]
      exact ⟨_, rfl⟩
    · by_cases hc : ¬(0 < c ∧ c < 1)
      · rw [if_pos hc]
        exact ⟨_, rfl⟩
      · simp only [if_neg hc, if_pos h]
        exact ⟨_, rfl⟩

/-- Witness for the amended claim C1: each operation evaluated at a concrete
precondition-violating input raises ValueError. -/
theorem claim_C1_amended_witness :
    raisesValueError (descriptive_stats ([] : Sample)) ∧
    raisesValueError (independent_t_test [some 1] [some 2, some 3] true) ∧
    raisesValueError (paired_t_test [some 1, none] [some 2, some 3]) ∧
    raisesValueError (one_way_anova [[some 1, some 2]]) ∧
    raisesValueError (correlation_analysis [some 1, some 2] [some 2, none] "cosine") ∧
    raisesValueError (normality_test [some 1, some 2]) ∧
    raisesValueError (confidence_interval [some 1, some 2] 2) :=
  ⟨claim_C1_amended.1 [] (Or.inl rfl),
   claim_C1_amended.2.1 [some 1] [some 2, some 3] true (Or.inl (by decide)),
   claim_C1_amended.2.2.1 [some 1, none] [some 2, some 3] (by decide),
   claim_C1_amended.2.2.2.1 [[some 1, some 2]] (Or.inl (by decide)),
   claim_C1_amended.2.2.2.2.1 [some 1, some 2] [some 2, none] "cosine"
     (Or.inl ⟨by decide, by decide, by decide⟩),
   claim_C1_amended.2.2.2.2.2.1 [some 1, some 2] (by decide),
   claim_C1_amended.2.2.2.2.2.2 [some 1, some 2] 2 (Or.inl (by norm_num))⟩

/-! ### Casting helpers and the spec-side standard deviation -/

lemma cast_list_sum (l : List ℚ) :
    ((l.sum : ℚ) : ℝ) = (l.map (fun x : ℚ => (x : ℝ))).sum :=
  map_list_sum (Rat.castHom ℝ).toAddMonoidHom l

lemma sampleVar_cast (l : List ℚ) :
    ((sampleVar l : ℚ) : ℝ) =
      (l.map (fun x : ℚ => ((x : ℝ) - ((listMean l : ℚ) : ℝ)) ^ 2)).sum /
        ((l.length : ℝ) - 1) := by
  unfold sampleVar
  push_cast [cast_list_sum, List.map_map]
  congr 1
  refine congrArg List.sum (List.map_congr_left ?_)
  intro x _
  simp only [Function.comp_apply]
  push_cast
  ring

lemma sampleStd_eq_specStd (l : List ℚ) : sampleStd l = specStd l := by
  unfold sampleStd specStd
  rw [sampleVar_cast]

/-! ### Claim C3: the Cohen d formula of independent_t_test -/

/-- Claim C3: for groups each with at least 2 non-missing values after
cleaning, independent_t_test returns cohens_d = (mean1 - mean2) / pooled_std
with pooled_std = sqrt(((n1-1)*s1^2 + (n2-1)*s2^2) / df), df = n1+n2-2, and
s1, s2 the sample standard deviations in the n-1 denominator convention
(specStd). Holds for either value of equal_var. -/
theorem claim_C3 (g1 g2 : Sample) (b : Bool) (h1 : 2 ≤ (clean g1).length)
    (h2 : 2 ≤ (clean g2).length) :
    ∃ r, independent_t_test g1 g2 b = Except.ok r ∧
      r.cohens_d =
        (((listMean (clean g1) : ℚ) : ℝ) - ((listMean (clean g2) : ℚ) : ℝ)) /
          Real.sqrt (((((clean g1).length : ℝ) - 1) * specStd (clean g1) ^ 2 +
              (((clean g2).length : ℝ) - 1) * specStd (clean g2) ^ 2) /
            (((clean g1).length : ℝ) + ((clean g2).length : ℝ) - 2)) := by
  simp only [independent_t_test]
  rw [if_neg (by omega)]
  refine ⟨_, rfl, ?_⟩
  rw [sampleStd_eq_specStd, sampleStd_eq_specStd]
  push_cast
  ring_nf

/-- Witness for claim C3 at groups [1, 2] and [3, 5, 4]. -/
theorem claim_C3_witness :
    2 ≤ (clean [some 1, some 2]).length ∧ 2 ≤ (clean [some 3, some 5, some 4]).length ∧
      (∃ r, independent_t_test [some 1, some 2] [some 3, some 5, some 4] true = Except.ok r ∧
        r.cohens_d =
          (((listMean (clean [some 1, some 2]) : ℚ) : ℝ) -
              ((listMean (clean [some 3, some 5, some 4]) : ℚ) : ℝ)) /
            Real.sqrt (((((clean [some 1, some 2]).length : ℝ) - 1) *
                  specStd (clean [some 1, some 2]) ^ 2 +
                (((clean [some 3, some 5, some 4]).length : ℝ) - 1) *
                  specStd (clean [some 3, some 5, some 4]) ^ 2) /
              (((clean [some 1, some 2]).length : ℝ) +
                ((clean [some 3, some 5, some 4]).length : ℝ) - 2))) :=
  ⟨by decide, by decide,
    claim_C3 [some 1, some 2] [some 3, some 5, some 4] true (by decide) (by decide)⟩

/-! ### Claim C9: df and cohens_d do not depend on equal_var -/

/-- Claim C9: for valid groups, the df and cohens_d returned by
independent_t_test are identical for equal_var=True and equal_var=False;
df is always n1+n2-2 and cohens_d always uses the pooled standard deviation,
even when the Welch test is requested. -/
theorem claim_C9 (g1 g2 : Sample) (h1 : 2 ≤ (clean g1).length)
    (h2 : 2 ≤ (clean g2).length) :
    ∃ r1 r2, independent_t_test g1 g2 true = Except.ok r1 ∧
      independent_t_test g1 g2 false = Except.ok r2 ∧
      r1.df = r2.df ∧ r1.cohens_d = r2.cohens_d ∧
      r1.df = ((clean g1).length : ℚ) + ((clean g2).length : ℚ) - 2 := by
  simp only [independent_t_test,
    if_neg (show ¬((clean g1).length < 2 ∨ (clean g2).length < 2) by omega)]
  exact ⟨_, _, rfl, rfl, rfl, rfl, rfl⟩

/-- Witness for claim C9 at groups [1, 2] and [3, 5]. -/
theorem claim_C9_witness :
    2 ≤ (clean [some 1, some 2]).length ∧ 2 ≤ (clean [some 3, some 5]).length ∧
      (∃ r1 r2, independent_t_test [some 1, some 2] [some 3, some 5] true = Except.ok r1 ∧
        independent_t_test [some 1, some 2] [some 3, some 5] false = Except.ok r2 ∧
        r1.df = r2.df ∧ r1.cohens_d = r2.cohens_d ∧
        r1.df = ((clean [some 1, some 2]).length : ℚ) +
          ((clean [some 3, some 5]).length : ℚ) - 2) :=
  ⟨by decide, by decide, claim_C9 [some 1, some 2] [some 3, some 5] (by decide) (by decide)⟩

/-! ### Claim C4: antisymmetry of independent_t_test under group swap -/

lemma tTwoSidedP_neg (ν t : ℝ) : tTwoSidedP ν (-t) = tTwoSidedP ν t := by
  unfold tTwoSidedP
  rw [abs_neg]

lemma swap_t_eq (m1 m2 v1 v2 n1 n2 : ℚ) :
    ((m2 - m1 : ℚ) : ℝ) /
        Real.sqrt ((((n2 - 1) * v2 + (n1 - 1) * v1) / (n2 + n1 - 2) * (1 / n2 + 1 / n1) : ℚ) : ℝ) =
      -(((m1 - m2 : ℚ) : ℝ) /
        Real.sqrt ((((n1 - 1) * v1 + (n2 - 1) * v2) / (n1 + n2 - 2) * (1 / n1 + 1 / n2) : ℚ) : ℝ)) := by
  rw [show (((n2 - 1) * v2 + (n1 - 1) * v1) / (n2 + n1 - 2) * (1 / n2 + 1 / n1) : ℚ) =
      (((n1 - 1) * v1 + (n2 - 1) * v2) / (n1 + n2 - 2) * (1 / n1 + 1 / n2) : ℚ) by ring]
  push_cast
  ring

lemma swap_welch_t_eq (m1 m2 v1 v2 n1 n2 : ℚ) :
    ((m2 - m1 : ℚ) : ℝ) / Real.sqrt ((v2 / n2 + v1 / n1 : ℚ) : ℝ) =
      -(((m1 - m2 : ℚ) : ℝ) / Real.sqrt ((v1 / n1 + v2 / n2 : ℚ) : ℝ)) := by
  rw [show (v2 / n2 + v1 / n1 : ℚ) = (v1 / n1 + v2 / n2 : ℚ) by ring]
  push_cast
  ring

lemma swap_pooled_eq (s1 s2 : ℝ) (n1 n2 : ℚ) :
    Real.sqrt ((((n2 - 1 : ℚ) : ℝ) * s2 ^ 2 + ((n1 - 1 : ℚ) : ℝ) * s1 ^ 2) /
        ((n2 + n1 - 2 : ℚ) : ℝ)) =
      Real.sqrt ((((n1 - 1 : ℚ) : ℝ) * s1 ^ 2 + ((n2 - 1 : ℚ) : ℝ) * s2 ^ 2) /
        ((n1 + n2 - 2 : ℚ) : ℝ)) := by
  congr 1
  push_cast
  ring

lemma swap_welchDf (v1 v2 n1 n2 : ℚ) : welchDf v2 v1 n2 n1 = welchDf v1 v2 n1 n2 := by
  unfold welchDf
  ring

/-- Claim C4: for valid groups, swapping the two argument groups of
independent_t_test negates t_statistic and cohens_d while leaving p_value and
df unchanged, for either value of equal_var. -/
theorem claim_C4 (g1 g2 : Sample) (b : Bool) (h1 : 2 ≤ (clean g1).length)
    (h2 : 2 ≤ (clean g2).length) :
    ∃ r s, independent_t_test g1 g2 b = Except.ok r ∧
      independent_t_test g2 g1 b = Except.ok s ∧
      s.t_statistic = -r.t_statistic ∧ s.cohens_d = -r.cohens_d ∧
      s.p_value = r.p_value ∧ s.df = r.df := by
  cases b
  case false =>
    simp only [independent_t_test,
      if_neg (show ¬((clean g1).length < 2 ∨ (clean g2).length < 2) by omega),
      if_neg (show ¬((clean g2).length < 2 ∨ (clean g1).length < 2) by omega),
      Bool.false_eq_true, if_false]
    refine ⟨_, _, rfl, rfl, ?_, ?_, ?_, ?_⟩
    · exact swap_welch_t_eq _ _ _ _ _ _
    · rw [swap_pooled_eq]
      push_cast
      ring
    · rw [swap_welchDf, swap_welch_t_eq, tTwoSidedP_neg]
    · push_cast
      ring
  case true =>
    simp only [independent_t_test,
      if_neg (show ¬((clean g1).length < 2 ∨ (clean g2).length < 2) by omega),
      if_neg (show ¬((clean g2).length < 2 ∨ (clean g1).length < 2) by omega),
      if_true]
    refine ⟨_, _, rfl, rfl, ?_, ?_, ?_, ?_⟩
    · exact swap_t_eq _ _ _ _ _ _
    · rw [swap_pooled_eq]
      push_cast
      ring
    · dsimp only
      rw [swap_t_eq, tTwoSidedP_neg]
      congr 1
      push_cast
      ring
    · push_cast
      ring

/-- Witness for claim C4 at groups [1, 2] and [3, 5]. -/
theorem claim_C4_witness :
    2 ≤ (clean [some 1, some 2]).length ∧ 2 ≤ (clean [some 3, some 5]).length ∧
      (∃ r s, independent_t_test [some 1, some 2] [some 3, some 5] true = Except.ok r ∧
        independent_t_test [some 3, some 5] [some 1, some 2] true = Except.ok s ∧
        s.t_statistic = -r.t_statistic ∧ s.cohens_d = -r.cohens_d ∧
        s.p_value = r.p_value ∧ s.df = r.df) :=
  ⟨by decide, by decide, claim_C4 [some 1, some 2] [some 3, some 5] true (by decide) (by decide)⟩

/-! ### List lemmas for the paired t test -/

lemma enumFrom_filterMap_snd (k : ℕ) (xs : Sample) :
    ((List.enumFrom k xs).filterMap (fun p => p.2.map (fun v => (p.1, v)))).map Prod.snd =
      clean xs := by
  induction xs generalizing k with
  | nil => rfl
  | cons o xs ih =>
    cases o with
    | none =>
      simp only [List.enumFrom_cons, List.filterMap_cons, Option.map_none, clean,
        List.filterMap_cons, id_eq]
      exact ih (k + 1)
    | some v =>
      simp only [List.enumFrom_cons, List.filterMap_cons, Option.map_some, clean,
        List.filterMap_cons, id_eq, List.map_cons]
      exact congrArg (List.cons v) (ih (k + 1))

lemma cleanIdx_map_snd (xs : Sample) : (cleanIdx xs).map Prod.snd = clean xs :=
  enumFrom_filterMap_snd 0 xs

lemma cleanIdx_length (xs : Sample) : (cleanIdx xs).length = (clean xs).length := by
  rw [← cleanIdx_map_snd, List.length_map]

lemma countSome_eq (xs : Sample) : countSome xs = (clean xs).length := by
  induction xs with
  | nil => rfl
  | cons o xs ih =>
    cases o with
    | none => simpa [countSome, clean] using ih
    | some v => simpa [countSome, clean] using ih

lemma enumFrom_take (k m : ℕ) (l : List ℚ) :
    (List.enumFrom k l).take m = List.enumFrom k (l.take m) := by
  induction l generalizing k m with
  | nil => simp
  | cons x xs ih =>
    cases m with
    | zero => simp
    | succ m => simp [List.enumFrom_cons, ih (k + 1) m]

lemma fst_ge_of_mem_enumFrom {p : ℕ × ℚ} {k : ℕ} {l : List ℚ}
    (hp : p ∈ List.enumFrom k l) : k ≤ p.1 := by
  induction l generalizing k with
  | nil => cases hp
  | cons x xs ih =>
    rw [List.enumFrom_cons] at hp
    rcases List.mem_cons.mp hp with rfl | hmem
    · exact le_refl k
    · exact le_trans (Nat.le_succ k) (ih hmem)

lemma cleanIdx_all_some_from (k : ℕ) (xs : Sample) (h : ∀ o ∈ xs, o ≠ none) :
    (List.enumFrom k xs).filterMap (fun p => p.2.map (fun v => (p.1, v))) =
      List.enumFrom k (clean xs) := by
  induction xs generalizing k with
  | nil => rfl
  | cons o xs ih =>
    cases o with
    | none => exact absurd rfl (h none (List.mem_cons_self none xs))
    | some v =>
      simp only [List.enumFrom_cons, List.filterMap_cons, Option.map_some, clean,
        List.filterMap_cons, id_eq]
      exact congrArg (List.cons (k, v))
        (ih (k + 1) (fun o ho => h o (List.mem_cons_of_mem (some v) ho)))

lemma cleanIdx_all_some (xs : Sample) (h : ∀ o ∈ xs, o ≠ none) :
    cleanIdx xs = List.enum (clean xs) :=
  cleanIdx_all_some_from 0 xs h

lemma clean_length_all_some (xs : Sample) (h : ∀ o ∈ xs, o ≠ none) :
    (clean xs).length = xs.length := by
  induction xs with
  | nil => rfl
  | cons o xs ih =>
    cases o with
    | none => exact absurd rfl (h none (List.mem_cons_self none xs))
    | some v =>
      simp only [clean, List.filterMap_cons, id_eq, List.length_cons]
      exact congrArg Nat.succ (ih (fun o ho => h o (List.mem_cons_of_mem (some v) ho)))

lemma lookup_enumFrom_zipWith (k : ℕ) (A B : List ℚ) (h : A.length = B.length) :
    (List.enumFrom k A).filterMap
        (fun p => (List.lookup p.1 (List.enumFrom k B)).map (fun bv => p.2 - bv)) =
      List.zipWith (fun a b => a - b) A B := by
  induction A generalizing B k with
  | nil => simp
  | cons a A2 ih =>
    cases B with
    | nil => cases h
    | cons b B2 =>
      simp only [List.enumFrom_cons, List.filterMap_cons, List.lookup_cons_self,
        Option.map_some, List.zipWith_cons_cons]
      refine congrArg (List.cons (a - b)) ?_
      rw [List.filterMap_congr (g := fun p =>
          (List.lookup p.1 (List.enumFrom (k + 1) B2)).map (fun bv => p.2 - bv)) ?_]
      · exact ih (k + 1) B2 (by simpa using h)
      · intro p hp
        have hk : k + 1 ≤ p.1 := fst_ge_of_mem_enumFrom hp
        have hne : (p.1 == k) = false := beq_eq_false_iff_ne.mpr (by omega)
        rw [List.lookup_cons, hne]

/-! ### Claim C5: cleaning, truncation, error bound and df of paired_t_test -/

/-- Claim C5: paired_t_test cleans each sample independently, truncates the
longer cleaned sample to the length of the shorter before pairing (the t
statistic is computed from the positionally paired truncated cleaned value
sequences), raises when fewer than 2 pairs remain, and returns df equal to the
number of pairs minus 1. -/
theorem claim_C5 (before after : Sample) :
    (Nat.min (countSome before) (countSome after) < 2 →
      raisesValueError (paired_t_test before after)) ∧
    (2 ≤ Nat.min (countSome before) (countSome after) →
      ∃ r, paired_t_test before after = Except.ok r ∧
        r.df = (Nat.min (countSome before) (countSome after) : ℚ) - 1 ∧
        r.t_statistic =
          ((listMean (List.zipWith (fun a b => a - b)
              ((clean before).take (Nat.min (countSome before) (countSome after)))
              ((clean after).take (Nat.min (countSome before) (countSome after)))) : ℚ) : ℝ) /
            (sampleStd (List.zipWith (fun a b => a - b)
              ((clean before).take (Nat.min (countSome before) (countSome after)))
              ((clean after).take (Nat.min (countSome before) (countSome after)))) /
              Real.sqrt ((Nat.min (countSome before) (countSome after) : ℕ) : ℝ))) := by
  have hmin : Nat.min (cleanIdx before).length (cleanIdx after).length =
      Nat.min (countSome before) (countSome after) := by
    rw [cleanIdx_length, cleanIdx_length, countSome_eq, countSome_eq]
  constructor
  · intro h
    unfold paired_t_test
    rw [if_pos (by omega)]
    exact ⟨_, rfl⟩
  · intro h
    have hz : ∀ m : ℕ, List.zipWith (fun p q : ℕ × ℚ => p.2 - q.2)
        ((cleanIdx before).take m) ((cleanIdx after).take m) =
        List.zipWith (fun a b => a - b) ((clean before).take m) ((clean after).take m) := by
      intro m
      rw [← cleanIdx_map_snd, ← cleanIdx_map_snd, ← List.map_take, ← List.map_take,
        List.zipWith_map]
    simp only [paired_t_test, if_neg (show ¬(Nat.min (cleanIdx before).length
      (cleanIdx after).length < 2) by omega)]
    refine ⟨_, rfl, ?_, ?_⟩
    · simp only [hmin]
    · simp only [hmin, hz]

/-- Witness for claim C5 at before = [1, missing, 2, 3] and after = [4, 6]. -/
theorem claim_C5_witness :
    2 ≤ Nat.min (countSome [some 1, none, some 2, some 3]) (countSome [some 4, some 6]) ∧
      (∃ r, paired_t_test [some 1, none, some 2, some 3] [some 4, some 6] = Except.ok r ∧
        r.df = (Nat.min (countSome [some 1, none, some 2, some 3])
          (countSome [some 4, some 6]) : ℚ) - 1 ∧
        r.t_statistic =
          ((listMean (List.zipWith (fun a b => a - b)
              ((clean [some 1, none, some 2, some 3]).take (Nat.min
                (countSome [some 1, none, some 2, some 3]) (countSome [some 4, some 6])))
              ((clean [some 4, some 6]).take (Nat.min
                (countSome [some 1, none, some 2, some 3])
                (countSome [some 4, some 6])))) : ℚ) : ℝ) /
            (sampleStd (List.zipWith (fun a b => a - b)
              ((clean [some 1, none, some 2, some 3]).take (Nat.min
                (countSome [some 1, none, some 2, some 3]) (countSome [some 4, some 6])))
              ((clean [some 4, some 6]).take (Nat.min
                (countSome [some 1, none, some 2, some 3])
                (countSome [some 4, some 6])))) /
              Real.sqrt ((Nat.min (countSome [some 1, none, some 2, some 3])
                (countSome [some 4, some 6]) : ℕ) : ℝ))) :=
  ⟨by decide,
    (claim_C5 [some 1, none, some 2, some 3] [some 4, some 6]).2 (by decide)⟩

/-! ### Claim C10: direction of mean_diff in paired_t_test -/

/-- Claim C10: for inputs with no missing values and each of length at least
2, paired_t_test returns mean_diff equal to the arithmetic mean of
after[i] - before[i] over the first min(len(before), len(after)) positions:
the difference is taken in the direction after minus before. -/
theorem claim_C10 (before after : Sample) (hb : ∀ o ∈ before, o ≠ none)
    (ha : ∀ o ∈ after, o ≠ none) (h2b : 2 ≤ before.length) (h2a : 2 ≤ after.length) :
    ∃ r, paired_t_test before after = Except.ok r ∧
      r.mean_diff = listMean (List.zipWith (fun a b => a - b)
        ((clean after).take (Nat.min before.length after.length))
        ((clean before).take (Nat.min before.length after.length))) := by
  have hlb : (clean before).length = before.length := clean_length_all_some before hb
  have hla : (clean after).length = after.length := clean_length_all_some after ha
  have hmin : Nat.min (cleanIdx before).length (cleanIdx after).length =
      Nat.min before.length after.length := by
    rw [cleanIdx_length, cleanIdx_length, hlb, hla]
  have h2M : 2 ≤ Nat.min before.length after.length := Nat.le_min.mpr ⟨h2b, h2a⟩
  have hguard : ¬(Nat.min (cleanIdx before).length (cleanIdx after).length < 2) := by
    rw [hmin]
    exact Nat.not_lt.mpr h2M
  simp only [paired_t_test, if_neg hguard]
  refine ⟨_, rfl, ?_⟩
  simp only [hmin]
  unfold alignedMeanDiff
  rw [cleanIdx_all_some before hb, cleanIdx_all_some after ha]
  simp only [List.enum]
  rw [enumFrom_take, enumFrom_take,
    lookup_enumFrom_zipWith 0 _ _
      (by rw [List.length_take, List.length_take, hlb, hla,
        Nat.min_eq_left (Nat.min_le_right _ _), Nat.min_eq_left (Nat.min_le_left _ _)])]

/-- Witness for claim C10 at before = [1, 2, 3] and after = [4, 6]. -/
theorem claim_C10_witness :
    (∀ o ∈ ([some 1, some 2, some 3] : Sample), o ≠ none) ∧
    (∀ o ∈ ([some 4, some 6] : Sample), o ≠ none) ∧
      (∃ r, paired_t_test [some 1, some 2, some 3] [some 4, some 6] = Except.ok r ∧
        r.mean_diff = listMean (List.zipWith (fun a b => a - b)
          ((clean [some 4, some 6]).take (Nat.min ([some 1, some 2, some 3] : Sample).length
            ([some 4, some 6] : Sample).length))
          ((clean [some 1, some 2, some 3]).take
            (Nat.min ([some 1, some 2, some 3] : Sample).length
              ([some 4, some 6] : Sample).length)))) :=
  ⟨by decide, by decide,
    claim_C10 [some 1, some 2, some 3] [some 4, some 6] (by decide) (by decide)
      (by decide) (by decide)⟩

/-! ### Claim C8: the two-group ANOVA F statistic is the squared t statistic -/

lemma sqsum_nonneg (l : List ℚ) (m : ℚ) : 0 ≤ (l.map (fun x => (x - m) ^ 2)).sum := by
  apply List.sum_nonneg
  intro x hx
  rcases List.mem_map.mp hx with ⟨y, hy, rfl⟩
  exact sq_nonneg _

lemma listSum_eq_mean_mul (l : List ℚ) (h : l.length ≠ 0) :
    l.sum = listMean l * (l.length : ℚ) := by
  unfold listMean
  rw [div_mul_cancel₀]
  exact_mod_cast h

/-- The heart of claim C8, in real arithmetic: with two groups of sizes n1, n2
at least 2, group means m1, m2, grand mean g, and within-group squared
deviation sums w1, w2, the square root of the F ratio equals the absolute
pooled-variance t statistic. Division by zero (constant data, w1 = w2 = 0)
degenerates to 0 = 0 on both sides. -/
lemma sqrtF_eq_absT (n1 n2 m1 m2 g w1 w2 M F E : ℝ)
    (hn1 : 2 ≤ n1) (hn2 : 2 ≤ n2) (hw1 : 0 ≤ w1) (hw2 : 0 ≤ w2)
    (hM : M = m1 - m2)
    (hg : g = (m1 * n1 + m2 * n2) / (n1 + n2))
    (hF : F = (n1 * (m1 - g) ^ 2 + n2 * (m2 - g) ^ 2) / (2 - 1) / ((w1 + w2) / (n1 + n2 - 2)))
    (hE : E = (w1 + w2) / (n1 + n2 - 2) * (1 / n1 + 1 / n2)) :
    Real.sqrt F = |M / Real.sqrt E| := by
  have hn1p : (0 : ℝ) < n1 := by linarith
  have hn2p : (0 : ℝ) < n2 := by linarith
  have hn1z : n1 ≠ 0 := ne_of_gt hn1p
  have hn2z : n2 ≠ 0 := ne_of_gt hn2p
  have hNz : n1 + n2 ≠ 0 := by positivity
  have hDp : (0 : ℝ) ≤ n1 + n2 - 2 := by linarith
  set ssb := n1 * (m1 - g) ^ 2 + n2 * (m2 - g) ^ 2 with hssb_def
  set msw := (w1 + w2) / (n1 + n2 - 2) with hmsw_def
  set c := 1 / n1 + 1 / n2 with hc_def
  have hssb0 : 0 ≤ ssb := by positivity
  have hmsw0 : 0 ≤ msw := div_nonneg (by linarith) hDp
  have hc0 : (0 : ℝ) < c := by
    rw [hc_def]
    positivity
  have hkey : ssb * c = M ^ 2 := by
    rw [hssb_def, hc_def, hM, hg]
    field_simp
    ring
  have hF2 : F = ssb / msw := by
    rw [hF]
    norm_num
  rw [hF2, hE, Real.sqrt_div hssb0, abs_div, abs_of_nonneg (Real.sqrt_nonneg _),
    Real.sqrt_mul hmsw0]
  rcases eq_or_ne (Real.sqrt msw) 0 with h0 | h0
  · rw [h0, zero_mul, div_zero, div_zero]
  · have hsc : Real.sqrt c ≠ 0 := ne_of_gt (Real.sqrt_pos.mpr hc0)
    rw [div_eq_div_iff h0 (mul_ne_zero h0 hsc)]
    have hmabs : Real.sqrt ssb * Real.sqrt c = |M| := by
      rw [← Real.sqrt_mul hssb0, hkey, Real.sqrt_sq_eq_abs]
    linear_combination Real.sqrt msw * hmabs

/-- Claim C8: for two valid groups, the square root of the f_statistic of
one_way_anova on exactly those groups equals the absolute value of the
t_statistic of independent_t_test with the equal-variance assumption (exactly,
in exact arithmetic; the floating source satisfies it within tolerance). -/
theorem claim_C8 (g1 g2 : Sample) (h1 : 2 ≤ (clean g1).length)
    (h2 : 2 ≤ (clean g2).length) :
    ∃ ra rt, one_way_anova [g1, g2] = Except.ok ra ∧
      independent_t_test g1 g2 true = Except.ok rt ∧
      Real.sqrt ((ra.f_statistic : ℚ) : ℝ) = |rt.t_statistic| := by
  have hmem : ¬∃ g ∈ [clean g1, clean g2], g.length < 2 := by
    rintro ⟨g, hg, hlen⟩
    simp only [List.mem_cons, List.not_mem_nil, or_false] at hg
    rcases hg with rfl | rfl
    · omega
    · omega
  simp only [one_way_anova, independent_t_test, List.map_cons, List.map_nil,
    List.length_cons, List.length_nil, List.sum_cons, List.sum_nil,
    if_neg (show ¬((clean g1).length < 2 ∨ (clean g2).length < 2) by omega),
    if_neg (show ¬(0 + 1 + 1 < 2) by omega), if_neg hmem, if_true]
  refine ⟨_, _, rfl, rfl, ?_⟩
  have hn1 : ((clean g1).length : ℚ) ≠ 0 := by
    exact_mod_cast show (clean g1).length ≠ 0 by omega
  have hn2 : ((clean g2).length : ℚ) ≠ 0 := by
    exact_mod_cast show (clean g2).length ≠ 0 by omega
  have hn1e : ((clean g1).length : ℚ) - 1 ≠ 0 := by
    have : ((clean g1).length : ℚ) ≥ 2 := by exact_mod_cast h1
    intro hcon
    rw [sub_eq_zero] at hcon
    rw [hcon] at this
    norm_num at this
  have hn2e : ((clean g2).length : ℚ) - 1 ≠ 0 := by
    have : ((clean g2).length : ℚ) ≥ 2 := by exact_mod_cast h2
    intro hcon
    rw [sub_eq_zero] at hcon
    rw [hcon] at this
    norm_num at this
  have hv1 : (((clean g1).length : ℚ) - 1) * sampleVar (clean g1) =
      ((clean g1).map (fun x => (x - listMean (clean g1)) ^ 2)).sum := by
    unfold sampleVar
    rw [mul_comm, div_mul_cancel₀ _ hn1e]
  have hv2 : (((clean g2).length : ℚ) - 1) * sampleVar (clean g2) =
      ((clean g2).map (fun x => (x - listMean (clean g2)) ^ 2)).sum := by
    unfold sampleVar
    rw [mul_comm, div_mul_cancel₀ _ hn2e]
  apply sqrtF_eq_absT
    (((clean g1).length : ℚ) : ℝ) (((clean g2).length : ℚ) : ℝ)
    ((listMean (clean g1) : ℚ) : ℝ) ((listMean (clean g2) : ℚ) : ℝ)
    ((((clean g1).sum + ((clean g2).sum + 0)) /
      (((clean g1).length : ℚ) + (((clean g2).length : ℚ) + 0)) : ℚ) : ℝ)
    ((((clean g1).map (fun x => (x - listMean (clean g1)) ^ 2)).sum : ℚ) : ℝ)
    ((((clean g2).map (fun x => (x - listMean (clean g2)) ^ 2)).sum : ℚ) : ℝ)
  · exact_mod_cast show ((clean g1).length : ℚ) ≥ 2 by exact_mod_cast h1
  · exact_mod_cast show ((clean g2).length : ℚ) ≥ 2 by exact_mod_cast h2
  · exact_mod_cast sqsum_nonneg (clean g1) (listMean (clean g1))
  · exact_mod_cast sqsum_nonneg (clean g2) (listMean (clean g2))
  · push_cast
    ring
  · rw [listSum_eq_mean_mul (clean g1) (by omega), listSum_eq_mean_mul (clean g2) (by omega)]
    push_cast
    ring
  · push_cast
    ring
  · rw [show (((((clean g1).length : ℚ) - 1) * sampleVar (clean g1) +
        (((clean g2).length : ℚ) - 1) * sampleVar (clean g2)) /
          (((clean g1).length : ℚ) + ((clean g2).length : ℚ) - 2) *
        (1 / ((clean g1).length : ℚ) + 1 / ((clean g2).length : ℚ))) =
        ((((clean g1).map (fun x => (x - listMean (clean g1)) ^ 2)).sum +
          ((clean g2).map (fun x => (x - listMean (clean g2)) ^ 2)).sum) /
          (((clean g1).length : ℚ) + ((clean g2).length : ℚ) - 2) *
        (1 / ((clean g1).length : ℚ) + 1 / ((clean g2).length : ℚ))) from by
      rw [hv1, hv2]]
    push_cast
    ring

/-- Witness for claim C8 at groups [1, 2] and [3, 5]. -/
theorem claim_C8_witness :
    2 ≤ (clean [some 1, some 2]).length ∧ 2 ≤ (clean [some 3, some 5]).length ∧
      (∃ ra rt, one_way_anova [[some 1, some 2], [some 3, some 5]] = Except.ok ra ∧
        independent_t_test [some 1, some 2] [some 3, some 5] true = Except.ok rt ∧
        Real.sqrt ((ra.f_statistic : ℚ) : ℝ) = |rt.t_statistic|) :=
  ⟨by decide, by decide, claim_C8 [some 1, some 2] [some 3, some 5] (by decide) (by decide)⟩

/-! ### The Student t model: integrability, symmetry and quantile positivity -/

lemma tKernel_base_ge_one {ν : ℝ} (hν : 1 ≤ ν) (x : ℝ) : 1 ≤ 1 + x ^ 2 / ν := by
  have h : 0 ≤ x ^ 2 / ν := div_nonneg (sq_nonneg x) (by linarith)
  linarith

lemma tKernel_nonneg {ν : ℝ} (hν : 1 ≤ ν) (x : ℝ) : 0 ≤ tKernel ν x :=
  Real.rpow_nonneg (by linarith [tKernel_base_ge_one hν x]) _

lemma tKernel_pos {ν : ℝ} (hν : 1 ≤ ν) (x : ℝ) : 0 < tKernel ν x :=
  Real.rpow_pos_of_pos (by linarith [tKernel_base_ge_one hν x]) _

lemma tKernel_le_one {ν : ℝ} (hν : 1 ≤ ν) (x : ℝ) : tKernel ν x ≤ 1 :=
  Real.rpow_le_one_of_one_le_of_nonpos (tKernel_base_ge_one hν x) (by linarith)

lemma tKernel_even (ν x : ℝ) : tKernel ν (-x) = tKernel ν x := by
  unfold tKernel
  rw [neg_sq]

lemma tKernel_continuous {ν : ℝ} (hν : 1 ≤ ν) : Continuous (tKernel ν) := by
  have hb : Continuous (fun x : ℝ => 1 + x ^ 2 / ν) := by
    exact continuous_const.add ((continuous_pow 2).div_const ν)
  exact hb.rpow_const (fun x => Or.inl (by linarith [tKernel_base_ge_one hν x]))

lemma tKernel_le_bound {ν : ℝ} (hν : 1 ≤ ν) (x : ℝ) :
    tKernel ν x ≤ ν * (1 + x ^ 2)⁻¹ := by
  have hνp : (0 : ℝ) < ν := by linarith
  have hb1 : 1 ≤ 1 + x ^ 2 / ν := tKernel_base_ge_one hν x
  have hbp : (0 : ℝ) < 1 + x ^ 2 / ν := by linarith
  have h1 : tKernel ν x = ((1 + x ^ 2 / ν) ^ ((ν + 1) / 2))⁻¹ := by
    unfold tKernel
    rw [Real.rpow_neg (le_of_lt hbp)]
  have h2 : 1 + x ^ 2 / ν ≤ (1 + x ^ 2 / ν) ^ ((ν + 1) / 2) := by
    calc 1 + x ^ 2 / ν = (1 + x ^ 2 / ν) ^ (1 : ℝ) := (Real.rpow_one _).symm
      _ ≤ (1 + x ^ 2 / ν) ^ ((ν + 1) / 2) :=
        Real.rpow_le_rpow_of_exponent_le hb1 (by linarith)
  have h3 : ((1 + x ^ 2 / ν) ^ ((ν + 1) / 2))⁻¹ ≤ (1 + x ^ 2 / ν)⁻¹ :=
    inv_le_inv_of_le hbp h2
  have h4 : (1 + x ^ 2 / ν)⁻¹ = ν / (ν + x ^ 2) := by
    rw [show 1 + x ^ 2 / ν = (ν + x ^ 2) / ν from by field_simp, inv_div]
  have h5 : ν / (ν + x ^ 2) ≤ ν / (1 + x ^ 2) := by
    apply div_le_div_of_nonneg_left (le_of_lt hνp) (by positivity) (by linarith)
  rw [h1]
  calc ((1 + x ^ 2 / ν) ^ ((ν + 1) / 2))⁻¹ ≤ (1 + x ^ 2 / ν)⁻¹ := h3
    _ = ν / (ν + x ^ 2) := h4
    _ ≤ ν / (1 + x ^ 2) := h5
    _ = ν * (1 + x ^ 2)⁻¹ := div_eq_mul_inv ν _

lemma tKernel_integrable {ν : ℝ} (hν : 1 ≤ ν) : Integrable (tKernel ν) := by
  apply (integrable_inv_one_add_sq.const_mul ν).mono'
    ((tKernel_continuous hν).aestronglyMeasurable)
  apply Filter.Eventually.of_forall
  intro x
  rw [Real.norm_eq_abs, abs_of_nonneg (tKernel_nonneg hν x)]
  exact tKernel_le_bound hν x

lemma tTotal_pos {ν : ℝ} (hν : 1 ≤ ν) : 0 < tTotal ν := by
  unfold tTotal
  rw [integral_pos_iff_support_of_nonneg (fun x => tKernel_nonneg hν x)
    (tKernel_integrable hν)]
  have hsupp : Function.support (tKernel ν) = Set.univ :=
    Set.eq_univ_of_forall (fun x => (tKernel_pos hν x).ne')
  rw [hsupp]
  simp

lemma integral_Iic_zero_eq_half {ν : ℝ} (hν : 1 ≤ ν) :
    ∫ u in Iic (0 : ℝ), tKernel ν u = tTotal ν / 2 := by
  have heven : ∫ u in Iic (0 : ℝ), tKernel ν u = ∫ u in Ioi (0 : ℝ), tKernel ν u := by
    have hcomp := integral_comp_neg_Iic (0 : ℝ) (tKernel ν)
    rw [neg_zero] at hcomp
    rw [← hcomp]
    apply setIntegral_congr measurableSet_Iic
    intro x _
    simp only []
    rw [tKernel_even]
  have hsplit : (∫ u in Iic (0 : ℝ), tKernel ν u) + ∫ u in Ioi (0 : ℝ), tKernel ν u =
      tTotal ν := by
    have h := integral_add_compl (measurableSet_Iic : MeasurableSet (Iic (0 : ℝ)))
      (tKernel_integrable hν)
    rw [compl_Iic] at h
    exact h
  linarith [heven, hsplit]

lemma integral_Iic_mono {ν : ℝ} (hν : 1 ≤ ν) {x y : ℝ} (h : x ≤ y) :
    ∫ u in Iic x, tKernel ν u ≤ ∫ u in Iic y, tKernel ν u := by
  apply setIntegral_mono_set (tKernel_integrable hν).integrableOn
    (Filter.Eventually.of_forall (fun u => tKernel_nonneg hν u))
  exact Filter.Eventually.of_forall (Iic_subset_Iic.mpr h)

lemma integral_Iic_le {ν : ℝ} (hν : 1 ≤ ν) {x : ℝ} (hx : 0 ≤ x) :
    ∫ u in Iic x, tKernel ν u ≤ tTotal ν / 2 + x := by
  rw [← Iic_union_Ioc_eq_Iic hx]
  rw [setIntegral_union (Iic_disjoint_Ioc (le_refl 0)) measurableSet_Ioc
    (tKernel_integrable hν).integrableOn (tKernel_integrable hν).integrableOn]
  rw [integral_Iic_zero_eq_half hν]
  have hle : ∫ u in Ioc (0 : ℝ) x, tKernel ν u ≤ ∫ u in Ioc (0 : ℝ) x, (1 : ℝ) := by
    apply setIntegral_mono_on (tKernel_integrable hν).integrableOn
      (integrableOn_const.mpr (Or.inr (by rw [Real.volume_Ioc]; exact ENNReal.ofReal_lt_top)))
      measurableSet_Ioc
    intro u _
    exact tKernel_le_one hν u
  have hconst : ∫ u in Ioc (0 : ℝ) x, (1 : ℝ) = x := by
    rw [setIntegral_const, Real.volume_Ioc, smul_eq_mul, mul_one, sub_zero,
      ENNReal.toReal_ofReal hx]
  linarith [hle, hconst]

lemma tendsto_integral_Iic {ν : ℝ} (hν : 1 ≤ ν) :
    Tendsto (fun n : ℕ => ∫ u in Iic (n : ℝ), tKernel ν u) atTop (𝓝 (tTotal ν)) := by
  have hU : (⋃ n : ℕ, Iic (n : ℝ)) = Set.univ := by
    apply Set.eq_univ_of_forall
    intro x
    obtain ⟨n, hn⟩ := exists_nat_ge x
    exact Set.mem_iUnion.mpr ⟨n, hn⟩
  have h := tendsto_setIntegral_of_monotone (s := fun n : ℕ => Iic (n : ℝ))
    (fun n => measurableSet_Iic)
    (fun a b hab => Iic_subset_Iic.mpr (Nat.cast_le.mpr hab))
    (by rw [hU]; exact integrableOn_univ.mpr (tKernel_integrable hν))
  rw [hU, setIntegral_univ] at h
  exact h

lemma exists_tCdf_ge {ν p : ℝ} (hν : 1 ≤ ν) (hp : p < 1) : ∃ x : ℝ, p ≤ tCdf ν x := by
  have hT := tTotal_pos hν
  have hlt : p * tTotal ν < tTotal ν := by nlinarith
  obtain ⟨n, hn⟩ := ((tendsto_integral_Iic hν).eventually (eventually_gt_nhds hlt)).exists
  refine ⟨(n : ℝ), ?_⟩
  unfold tCdf
  rw [le_div_iff hT]
  exact le_of_lt hn

/-- Positivity of the Student t quantile above the median: for ν ≥ 1 and
1/2 < p < 1 the modelled scipy.stats.t.ppf value is strictly positive. -/
lemma tPpf_pos {ν p : ℝ} (hν : 1 ≤ ν) (hp2 : 1 / 2 < p) (hp1 : p < 1) :
    0 < tPpf ν p := by
  have hT := tTotal_pos hν
  have hne : {x : ℝ | p ≤ tCdf ν x}.Nonempty := exists_tCdf_ge hν hp1
  have hlow : ∀ x ∈ {x : ℝ | p ≤ tCdf ν x}, (p - 1 / 2) * tTotal ν ≤ x := by
    intro x hx
    have hpx : p * tTotal ν ≤ ∫ u in Iic x, tKernel ν u := by
      have := hx
      rw [Set.mem_setOf_eq] at this
      unfold tCdf at this
      rw [le_div_iff hT] at this
      exact this
    have hxpos : 0 < x := by
      by_contra hcon
      push_neg at hcon
      have h1 : ∫ u in Iic x, tKernel ν u ≤ tTotal ν / 2 := by
        rw [← integral_Iic_zero_eq_half hν]
        exact integral_Iic_mono hν hcon
      nlinarith
    have h2 : ∫ u in Iic x, tKernel ν u ≤ tTotal ν / 2 + x :=
      integral_Iic_le hν (le_of_lt hxpos)
    nlinarith
  have hsInf : (p - 1 / 2) * tTotal ν ≤ tPpf ν p := le_csInf hne hlow
  have hpos : 0 < (p - 1 / 2) * tTotal ν := mul_pos (by linarith) hT
  linarith

lemma semOf_pos {l : List ℚ} (h2 : 2 ≤ l.length) (hv : sampleVar l ≠ 0) : 0 < semOf l := by
  unfold semOf sampleStd
  apply div_pos
  · apply Real.sqrt_pos.mpr
    have hge : 0 ≤ sampleVar l := sampleVar_nonneg (by omega)
    have : (0 : ℚ) < sampleVar l := lt_of_le_of_ne hge (Ne.symm hv)
    exact_mod_cast this
  · apply Real.sqrt_pos.mpr
    have : 0 < l.length := by omega
    exact_mod_cast this

/-! ### Claim C7: confidence_interval -/

/-- Claim C7: confidence_interval raises on a confidence level outside the
open interval (0,1) or on fewer than 2 non-missing observations; otherwise it
returns mean plus and minus margin, where margin is the standard error of the
mean times the two-sided Student t critical value at degrees of freedom equal
to the cleaned sample count minus 1; and for confidence 0.95 and any sample
with non-zero variance, lower_bound < mean < upper_bound. -/
theorem claim_C7 (data : Sample) (conf : ℚ) :
    (¬(0 < conf ∧ conf < 1) ∨ (clean data).length < 2 →
      raisesValueError (confidence_interval data conf)) ∧
    ((0 < conf ∧ conf < 1) → 2 ≤ (clean data).length →
      confidence_interval data conf = Except.ok
        (((listMean (clean data) : ℚ) : ℝ) -
          semOf (clean data) *
            tPpf (((clean data).length : ℝ) - 1) (((1 + conf) / 2 : ℚ) : ℝ),
         ((listMean (clean data) : ℚ) : ℝ) +
          semOf (clean data) *
            tPpf (((clean data).length : ℝ) - 1) (((1 + conf) / 2 : ℚ) : ℝ))) ∧
    (conf = 95 / 100 → 2 ≤ (clean data).length → sampleVar (clean data) ≠ 0 →
      ∃ lo hi, confidence_interval data conf = Except.ok (lo, hi) ∧
        lo < ((listMean (clean data) : ℚ) : ℝ) ∧
        ((listMean (clean data) : ℚ) : ℝ) < hi) := by
  refine ⟨?_, ?_, ?_⟩
  · intro h
    unfold confidence_interval
    rcases h with h | h
    · rw [if_pos h]
      exact ⟨_, rfl⟩
    · by_cases hc : ¬(0 < conf ∧ conf < 1)
      · rw [if_pos hc]
        exact ⟨_, rfl⟩
      · simp only [if_neg hc, if_pos h]
        exact ⟨_, rfl⟩
  · intro hc h2
    simp only [confidence_interval, if_neg (not_not_intro hc),
      if_neg (show ¬((clean data).length < 2) by omega)]
  · intro hconf h2 hv
    subst hconf
    have hν : 1 ≤ ((clean data).length : ℝ) - 1 := by
      have : (2 : ℝ) ≤ ((clean data).length : ℝ) := by exact_mod_cast h2
      linarith
    have hp2 : 1 / 2 < (((1 + 95 / 100) / 2 : ℚ) : ℝ) := by
      push_cast
      norm_num
    have hp1 : (((1 + 95 / 100) / 2 : ℚ) : ℝ) < 1 := by
      push_cast
      norm_num
    have hmargin : 0 < semOf (clean data) *
        tPpf (((clean data).length : ℝ) - 1) (((1 + 95 / 100) / 2 : ℚ) : ℝ) :=
      mul_pos (semOf_pos h2 hv) (tPpf_pos hν hp2 hp1)
    refine ⟨((listMean (clean data) : ℚ) : ℝ) - semOf (clean data) *
        tPpf (((clean data).length : ℝ) - 1) (((1 + 95 / 100) / 2 : ℚ) : ℝ),
      ((listMean (clean data) : ℚ) : ℝ) + semOf (clean data) *
        tPpf (((clean data).length : ℝ) - 1) (((1 + 95 / 100) / 2 : ℚ) : ℝ),
      ?_, by linarith, by linarith⟩
    simp only [confidence_interval, if_neg (not_not_intro (by norm_num :
      (0 : ℚ) < 95 / 100 ∧ (95 : ℚ) / 100 < 1)),
      if_neg (show ¬((clean data).length < 2) by omega)]

/-- Witness for claim C7 at the sample [1, 2, 3] with confidence 0.95. -/
theorem claim_C7_witness :
    (95 / 100 : ℚ) = 95 / 100 ∧ 2 ≤ (clean [some 1, some 2, some 3]).length ∧
      sampleVar (clean [some 1, some 2, some 3]) ≠ 0 ∧
      (∃ lo hi, confidence_interval [some 1, some 2, some 3] (95 / 100) = Except.ok (lo, hi) ∧
        lo < ((listMean (clean [some 1, some 2, some 3]) : ℚ) : ℝ) ∧
        ((listMean (clean [some 1, some 2, some 3]) : ℚ) : ℝ) < hi) := by
  have hvar : sampleVar (clean [some 1, some 2, some 3]) ≠ 0 := by
    simp only [clean, List.filterMap_cons, List.filterMap_nil, id_eq]
    norm_num [sampleVar, listMean]
  exact ⟨rfl, by decide, hvar,
    (claim_C7 [some 1, some 2, some 3] (95 / 100)).2.2 rfl (by decide) hvar⟩

end FPStats
